import Mathlib

/-!
Shallow embedding of the lia knowledge-base assistant's core
(`src/domain/knowledge/knowledge_provider.py`,
`src/domain/learning/learning_provider.py`,
`src/infra/learning/sqlite_persistence_adapter.py`, `src/config.py`)
together with theorems settling the specification claims about it.

Modelling conventions:
* Python floats (similarity scores) are modelled as rationals `ℚ`; the
  claims under scrutiny only compare scores against the fixed threshold
  `0.6`, which is exact in either representation.
* Python `datetime` values are modelled as a pair of a date ordinal
  (`day`, the proleptic-Gregorian day number, as returned by
  `datetime.date.toordinal`) and a time-of-day component (`tod`,
  microseconds since midnight).  `datetime` comparison is lexicographic
  on `(day, tod)`, `.date()` projects to `day`, and adding a
  `timedelta(days = k)` adds `k` to `day` and leaves `tod` unchanged.
* Persistence adapters are modelled as explicit state (`ReviewStore`)
  or as function-valued environments (`KnowledgeStore`): the SQLite
  `review_groups` table becomes a list of rows plus the AUTOINCREMENT
  counter, and the file-backed record store becomes the functions the
  match engine reads from it.
* Code that can raise an uncaught Python exception (`IndexError` from
  `top_n_similar_ranking[0]`, `AttributeError` from
  `next_review_date.date()` on `None`, `ValueError` from
  `_is_last_group_of_review_groups` with zero groups) is modelled with
  `Option`/an explicit `crash` result: `none`/`crash` is the exception.
-/

namespace Lia

/-! ### Data model (`knowledge_data_objects.py`, `learning_data_objects.py`) -/

/-- Source `src/config.py`: `MAX_RECORDS_PER_REVIEW_GROUP: int = 7`. -/
def MAX_RECORDS_PER_REVIEW_GROUP : ℕ := 7

/-- Source `src/config.py`: `TOP_N_RESULTS = 3`. -/
def TOP_N_RESULTS : ℕ := 3

/-- Source `src/config.py`: the `SimilarityScore` enum of score bands. -/
inductive SimilarityScore where
  | HIGH
  | MEDIUM
  | LOW
deriving DecidableEq, Repr

/-- Source `SimilarityScore.lower_bound`: first component of the band. -/
def SimilarityScore.lower_bound : SimilarityScore → ℚ
  | .HIGH => 0.8
  | .MEDIUM => 0.6
  | .LOW => 0.0

/-- Source `SimilarityScore.upper_bound`: second component of the band. -/
def SimilarityScore.upper_bound : SimilarityScore → ℚ
  | .HIGH => 1.0
  | .MEDIUM => 0.8
  | .LOW => 0.6

/-- Source `knowledge_data_objects.RecordHeading`. -/
structure RecordHeading where
  topic : String
  id : ℕ
  text : String
  tags : List String
  alternative_headings_id : List ℕ
deriving DecidableEq, Repr

/-- Source `knowledge_data_objects.RecordHeadingMatch` (the score, a Python
float, is modelled as `ℚ`). -/
structure RecordHeadingMatch where
  record_heading : RecordHeading
  similarity_indice : ℚ
deriving DecidableEq, Repr

/-- Source `knowledge_data_objects.KnowledgeRecord`. -/
structure KnowledgeRecord where
  id : ℕ
  headings : List String
  body : String
deriving DecidableEq, Repr

/-! ### Match engine (`knowledge_provider.py`) -/

/-- The slice of the `KnowledgePersistencePort` the match engine reads:
`get_topic_list`, `get_referenced_headings_list_for_topic`, `get_body`. -/
structure KnowledgeStore where
  topics : List String
  headingsFor : String → List RecordHeading
  body : String → ℕ → String

/-- The `rank_similarities` capability of `SentenceSimilarityPort`:
query, candidate texts, `top_n` ↦ list of `(pool_index, score)` pairs. -/
abbrev Scorer := String → List String → ℕ → List (ℕ × ℚ)

/-- ASCII approximation of the regex word class `\w` used by the
`\b`-delimited search in `KnowledgeProvider.__match_topics`. -/
def isWordChar (c : Char) : Bool := c.isAlphanum || c == '_'

/-- Whether position `i` of `s` holds a word character (out of range
counts as a non-word character, like the edges of a regex subject). -/
def wordCharAt (s : List Char) (i : ℕ) : Bool :=
  ((s[i]?).map isWordChar).getD false

/-- Whether a regex `\b` word boundary sits just before position `i`
of `s` (between `s[i-1]` and `s[i]`, the string edges being non-word). -/
def boundaryAt (s : List Char) (i : ℕ) : Bool :=
  (if i = 0 then false else wordCharAt s (i - 1)) != wordCharAt s i

/-- Whether `t` occurs verbatim in `s` starting at position `i`. -/
def substringAt (s t : List Char) (i : ℕ) : Bool :=
  decide ((s.drop i).take t.length = t)

/-- Source `topic_lower in sentence_lower`: plain substring containment. -/
def containsSubstring (s t : List Char) : Bool :=
  (List.range (s.length + 1)).any (fun i => substringAt s t i)

/-- One candidate position of `re.search(rf"\b{re.escape(t)}\b", s)`:
`t` occurs literally at `i` and both ends sit on a word boundary. -/
def matchWholeWordAt (s t : List Char) (i : ℕ) : Bool :=
  substringAt s t i && boundaryAt s i && boundaryAt s (i + t.length)

/-- Source `re.search(rf"\b{re.escape(t)}\b", s)` succeeds somewhere in `s`. -/
def searchWholeWord (s t : List Char) : Bool :=
  (List.range (s.length + 1)).any (matchWholeWordAt s t)

/-- Source `KnowledgeProvider.__match_topics`.  The Python code accumulates
matches in a `set` whose iteration order is unspecified; the model
returns each matched topic once, in `known_topics` order. -/
def match_topics (sentence : String) (known_topics : List String)
    (whole_word : Bool) : List String :=
  let sl := sentence.toLower
  known_topics.filter (fun topic =>
    let tl := topic.toLower
    if whole_word then searchWholeWord sl.data tl.data
    else containsSubstring sl.data tl.data)

/-- The selected topics of `KnowledgeProvider.ask` line 67: the detected
topics plus the always-appended sentinel topic `"undefined"`. -/
def askTopics (kb : KnowledgeStore) (user_input : String) : List String :=
  match_topics user_input kb.topics true ++ ["undefined"]

/-- Source `KnowledgeProvider.__get_topics_headings` applied to the selected
topics: the flat heading pool of `ask`. -/
def askPool (kb : KnowledgeStore) (user_input : String) : List RecordHeading :=
  (askTopics kb user_input).flatMap kb.headingsFor

/-- The `top_n_similar_ranking` of `ask`: the scorer applied to the
pool's heading texts with `TOP_N_RESULTS`. -/
def askRanking (kb : KnowledgeStore) (scorer : Scorer) (user_input : String) :
    List (ℕ × ℚ) :=
  scorer user_input ((askPool kb user_input).map (·.text)) TOP_N_RESULTS

/-- Source `KnowledgeProvider.__purge_headings_from_a_same_record`: keep entry
`index` unless `index > 0` and its heading id appears in the
`alternative_headings_id` of entry `index - 1` of the *original* list. -/
def purge_headings_from_a_same_record (headings : List RecordHeadingMatch) :
    List RecordHeadingMatch :=
  headings.enum.filterMap (fun p =>
    if p.1 > 0 && (match headings[p.1 - 1]? with
        | some prev =>
          decide (p.2.record_heading.id ∈ prev.record_heading.alternative_headings_id)
        | none => false) then
      none
    else some p.2)

/-- Modelled from the spec: the sibling deduplication as the spec words
it — an entry is dropped exactly when its heading id appears in the
immediately preceding *surviving* entry's `alternative_headings_id`.
Used only to compare the spec's wording against the source's
`__purge_headings_from_a_same_record` above. -/
def purgeBySurvivingPredecessor : List RecordHeadingMatch → List RecordHeadingMatch
  | [] => []
  | h :: t => h :: go h t
where
  /-- The accumulator `prev` is the last surviving entry. -/
  go (prev : RecordHeadingMatch) : List RecordHeadingMatch → List RecordHeadingMatch
    | [] => []
    | x :: xs =>
      if x.record_heading.id ∈ prev.record_heading.alternative_headings_id then
        go prev xs
      else
        x :: go x xs

/-- The tuple comprehension of `ask` lines 80–83: turn each
`(pool_index, score)` pair of the ranking into a `RecordHeadingMatch`
against the heading pool, left to right; an out-of-range pool index is
the `IndexError` of `headings[index]` (`none`). -/
def lookupMatches (headings : List RecordHeading) :
    List (ℕ × ℚ) → Option (List RecordHeadingMatch)
  | [] => some []
  | p :: rest =>
    match headings[p.1]? with
    | none => none
    | some h =>
      match lookupMatches headings rest with
      | none => none
      | some ms => some (RecordHeadingMatch.mk h p.2 :: ms)

/-- Source `KnowledgeProvider.ask` (lines 62–95).  The scorer is always
supplied (the Python `None` check guards a configuration error that is
out of scope of the claims).  `none` models an uncaught `IndexError`:
either a scorer-returned pool index out of range while building
`top_n_similar_headings`, or `top_n_similar_ranking[0]` /
`top_n_similar_headings[0]` on an empty list. -/
def ask (kb : KnowledgeStore) (scorer : Scorer) (user_input : String) :
    Option (List RecordHeadingMatch × String) :=
  let headings := askPool kb user_input
  if headings.isEmpty then some ([], "")
  else
    let ranking := askRanking kb scorer user_input
    match lookupMatches headings ranking with
    | none => none
    | some top_n_similar_headings =>
      let purged := purge_headings_from_a_same_record top_n_similar_headings
      match ranking[0]? with
      | none => none
      | some r0 =>
        if SimilarityScore.MEDIUM.lower_bound ≤ r0.2 then
          match purged[0]? with
          | none => none
          | some best =>
            some (purged, kb.body best.record_heading.topic best.record_heading.id)
        else some (purged, "")

/-! ### Review scheduler (`learning_provider.py`, `sqlite_persistence_adapter.py`) -/

/-- A Python `datetime`: `day` is the proleptic-Gregorian ordinal of the
date part (`datetime.date.toordinal`), `tod` the microseconds since
midnight.  Comparison is lexicographic on `(day, tod)`. -/
structure DateTime where
  day : ℕ
  tod : ℕ
deriving DecidableEq, Repr

/-- Python `datetime.date()`: the date part. -/
def DateTime.date (d : DateTime) : ℕ := d.day

/-- Python `datetime + timedelta(days = k)`: whole days leave the time of day
unchanged. -/
def DateTime.addDays (d : DateTime) (k : ℕ) : DateTime := ⟨d.day + k, d.tod⟩

/-- Python `datetime.max` (9999-12-31 23:59:59.999999), the sentinel used by
`fetch_groups_to_review` for a `None` next review date:
`date(9999, 12, 31).toordinal() = 3652059`. -/
def datetimeMax : DateTime := ⟨3652059, 86399999999⟩

/-- Source `learning_data_objects.ReviewGroup`: one row of the SQLite
`review_groups` table. -/
structure ReviewGroup where
  id : ℕ
  group_index : ℕ
  topic : String
  last_review_date : Option DateTime
  next_review_date : Option DateTime
  reviews_count : ℕ
deriving DecidableEq, Repr

/-- The SQLite `review_groups` table of `SQLitePersistenceAdapter`:
its rows plus the AUTOINCREMENT counter for the `id` column. -/
structure ReviewStore where
  groups : List ReviewGroup
  nextId : ℕ
deriving DecidableEq, Repr

/-- Source `SQLitePersistenceAdapter.get_number_of_review_groups_for_topic`:
`SELECT COUNT(*) FROM review_groups WHERE topic = ?`. -/
def get_number_of_review_groups_for_topic (st : ReviewStore) (topic : String) : ℕ :=
  (st.groups.filter (fun g => g.topic = topic)).length

/-- Source `SQLitePersistenceAdapter.update_review_groups_for_topic` (which
`LearningProvider.__update_review_groups_for_topic` calls with
`count_records_for_topic(topic)`): compute
`required = ceil(count / MAX_RECORDS_PER_REVIEW_GROUP)` and, when more
groups are required than exist, INSERT rows with `group_index` running
from the existing count up to `required - 1`, each initialized with
NULL dates and `reviews_count = 0`. -/
def update_review_groups_for_topic (st : ReviewStore) (topic : String)
    (count : ℕ) : ReviewStore :=
  let existing := get_number_of_review_groups_for_topic st topic
  let required := (count + MAX_RECORDS_PER_REVIEW_GROUP - 1) / MAX_RECORDS_PER_REVIEW_GROUP
  if existing < required then
    { groups := st.groups ++ (List.range (required - existing)).map (fun j =>
        { id := st.nextId + j
          group_index := existing + j
          topic := topic
          last_review_date := none
          next_review_date := none
          reviews_count := 0 })
      nextId := st.nextId + (required - existing) }
  else st

/-- Outcome of one `LearningProvider._update_review_group_dates_and_count`
call: `crash` is the `AttributeError` of `next_review_date.date()` when
`next_review_date` is `None`; `noChange` means no branch fired (nothing
mutated, nothing persisted); `updated g` is the new state of the group,
mutated in place and persisted via
`update_review_group_dates_and_count` on the store. -/
inductive ReviewStepResult where
  | crash
  | noChange
  | updated (g : ReviewGroup)
deriving DecidableEq, Repr

/-- Source `LearningProvider._update_review_group_dates_and_count` as a pure
step on the active group.  The Python code calls `datetime.today()`
separately for `today`, `last_review_date` and `next_review_date`;
the model uses the single timestamp `now` for all three. -/
def update_review_group_dates_and_count (now : DateTime) (g : ReviewGroup) :
    ReviewStepResult :=
  let today := now.date
  if g.reviews_count = 0 then
    .updated { g with
      last_review_date := some now
      next_review_date := some (now.addDays 1)
      reviews_count := g.reviews_count + 1 }
  else if g.reviews_count = 1 then
    match g.next_review_date with
    | none => .crash
    | some d =>
      if d.date ≤ today then
        .updated { g with
          last_review_date := some now
          next_review_date := some (now.addDays 5)
          reviews_count := g.reviews_count + 1 }
      else .noChange
  else if g.reviews_count = 2 then
    match g.next_review_date with
    | none => .crash
    | some d =>
      if d.date ≤ today then
        .updated { g with
          last_review_date := some now
          next_review_date := some (now.addDays 23)
          reviews_count := g.reviews_count + 1 }
      else .noChange
  else if g.reviews_count = 3 then
    match g.next_review_date with
    | none => .crash
    | some d =>
      if d.date ≤ today then
        .updated { g with
          last_review_date := some now
          next_review_date := none
          reviews_count := g.reviews_count + 1 }
      else .noChange
  else .noChange

/-- The Python sort key of `fetch_groups_to_review`:
`(next_review_date or datetime.max, reviews_count, topic,
next_review_date is None)`, compared lexicographically; the topic, a
Python `str`, compares by code points, modelled by the lexicographic
order on its character list. -/
def groupSortKey (g : ReviewGroup) :
    Lex (ℕ × Lex (ℕ × Lex (ℕ × Lex (List Char × Bool)))) :=
  let d := g.next_review_date.getD datetimeMax
  toLex (d.day, toLex (d.tod, toLex (g.reviews_count,
    toLex (g.topic.data, g.next_review_date.isNone))))

/-- The total preorder `sorted` uses in `fetch_groups_to_review`. -/
def groupLE (a b : ReviewGroup) : Prop := groupSortKey a ≤ groupSortKey b

instance : DecidableRel groupLE := fun a b =>
  inferInstanceAs (Decidable (groupSortKey a ≤ groupSortKey b))

instance : IsTotal ReviewGroup groupLE :=
  ⟨fun a b => le_total (groupSortKey a) (groupSortKey b)⟩

instance : IsTrans ReviewGroup groupLE :=
  ⟨fun _ _ _ hab hbc => le_trans hab hbc⟩

/-- The read-only slice of the `KnowledgePersistencePort` the review
scheduler needs: `get_topic_list` and `count_records_for_topic`. -/
structure LearningEnv where
  topics : List String
  record_count : String → ℕ

/-- Source `LearningProvider.fetch_groups_to_review`: reconcile the groups of
every known topic, then return all groups sorted by `groupLE` (Python's
`sorted` is a stable sort; for a total preorder every stable sort
returns the same list, here modelled by `List.insertionSort`). -/
def fetch_groups_to_review (env : LearningEnv) (st : ReviewStore) :
    ReviewStore × List ReviewGroup :=
  let st1 := env.topics.foldl
    (fun s t => update_review_groups_for_topic s t (env.record_count t)) st
  (st1, List.insertionSort groupLE st1.groups)

/-- Source `LearningProvider.get_number_of_records_in_review_group` for a group
with index `groupIndex` of a topic with `numGroups` review groups and
`totalRecords` records.  `none` is the `ValueError` raised by
`_is_last_group_of_review_groups` when the topic has zero groups; the
last-group remainder is computed over `ℤ` exactly as Python's unbounded
ints would. -/
def get_number_of_records_in_review_group (numGroups totalRecords groupIndex : ℕ) :
    Option ℤ :=
  if numGroups = 0 then none
  else if numGroups - 1 = groupIndex then
    some ((totalRecords : ℤ) - ((numGroups : ℤ) - 1) * (MAX_RECORDS_PER_REVIEW_GROUP : ℤ))
  else some (MAX_RECORDS_PER_REVIEW_GROUP : ℤ)

/-- The transient review-session state of `LearningProvider`:
`_current_review_group` and `_current_reviewed_record_position`. -/
structure ReviewSession where
  group : ReviewGroup
  pos : ℕ
deriving DecidableEq, Repr

/-- Source `LearningProvider.get_next_record_to_review`, returning the absolute
index of the record fetched (`group_index * MAX_RECORDS_PER_REVIEW_GROUP
+ cursor`) together with the session state after the call; `numGroups`
and `totalRecords` are what the stores answer for the active group's
topic.  `none` models an uncaught exception from
`get_number_of_records_in_review_group` (zero groups) or from the
interval-progression step (`None.date()`). -/
def get_next_record_to_review (numGroups totalRecords : ℕ) (now : DateTime)
    (s : ReviewSession) : Option (ℕ × ReviewSession) :=
  let global_record_position :=
    s.group.group_index * MAX_RECORDS_PER_REVIEW_GROUP + s.pos
  match get_number_of_records_in_review_group numGroups totalRecords s.group.group_index with
  | none => none
  | some n =>
    if (s.pos : ℤ) < n - 1 ∧ (s.pos : ℤ) < (MAX_RECORDS_PER_REVIEW_GROUP : ℤ) - 1 then
      some (global_record_position, ⟨s.group, s.pos + 1⟩)
    else
      match update_review_group_dates_and_count now s.group with
      | .crash => none
      | .noChange => some (global_record_position, ⟨s.group, 0⟩)
      | .updated g => some (global_record_position, ⟨g, 0⟩)

/-- The review groups reachable in the system: rows created by
`update_review_groups_for_topic` (NULL dates, `reviews_count = 0`)
evolved by successful `_update_review_group_dates_and_count` steps. -/
inductive ReachableReviewGroup : ReviewGroup → Prop where
  | created (id idx : ℕ) (topic : String) :
      ReachableReviewGroup ⟨id, idx, topic, none, none, 0⟩
  | step (g g' : ReviewGroup) (now : DateTime) :
      ReachableReviewGroup g →
      update_review_group_dates_and_count now g = .updated g' →
      ReachableReviewGroup g'

/-! ### Concrete data used by counterexamples and witnesses -/

/-- Heading 1 of a ranked list; lists heading 2 as its sibling. -/
def rhmX : RecordHeadingMatch := ⟨⟨"t", 1, "x", [], [2]⟩, 1⟩

/-- Heading 2; lists headings 1 and 3 as its siblings (symmetric data). -/
def rhmY : RecordHeadingMatch := ⟨⟨"t", 2, "y", [], [1, 3]⟩, 1⟩

/-- Heading 3; lists heading 2 as its sibling, but not heading 1. -/
def rhmZ : RecordHeadingMatch := ⟨⟨"t", 3, "z", [], [2]⟩, 1⟩

/-- Heading 1 with an empty sibling list. -/
def rhmA : RecordHeadingMatch := ⟨⟨"t", 1, "a", [], []⟩, 1⟩

/-- Heading 2 whose sibling list contains heading 1 (the relation is
asymmetric here: `rhmA` does not list heading 2). -/
def rhmB : RecordHeadingMatch := ⟨⟨"t", 2, "b", [], [1]⟩, 1⟩

/-- Heading 3, unrelated to the others. -/
def rhmC : RecordHeadingMatch := ⟨⟨"t", 3, "c", [], []⟩, 1⟩

/-- Heading 1 listing heading 2 as its sibling. -/
def rhmP : RecordHeadingMatch := ⟨⟨"t", 1, "p", [], [2]⟩, 1⟩

/-- Heading 2 (dropped after `rhmP` in a ranked list). -/
def rhmQ : RecordHeadingMatch := ⟨⟨"t", 2, "q", [], [1]⟩, 1⟩

/-- Heading 3, unrelated to the others. -/
def rhmR : RecordHeadingMatch := ⟨⟨"t", 3, "r", [], []⟩, 1⟩

/-- A knowledge store with no topics and no headings at all. -/
def emptyKB : KnowledgeStore := ⟨[], fun _ => [], fun _ _ => ""⟩

/-- A single heading filed under the sentinel topic. -/
def witnessHeading : RecordHeading := ⟨"undefined", 1, "how", [], []⟩

/-- A knowledge store whose every topic answers with `witnessHeading`
(only the sentinel topic is ever queried: the topic list is empty). -/
def witnessKB : KnowledgeStore := ⟨[], fun _ => [witnessHeading], fun _ _ => "BODY"⟩

/-- A scorer that returns an empty ranking for every request. -/
def nilScorer : Scorer := fun _ _ _ => []

/-- A scorer that ranks the first candidate with score 1. -/
def topScorer : Scorer := fun _ _ _ => [(0, 1)]

/-- A scorer that ranks the first candidate with score 1/2 (below the
relevance gate). -/
def lowScorer : Scorer := fun _ _ _ => [(0, 1/2)]

/-- A group of topic `"ad"` due 2025-02-17 (ordinal 739299) with 3
reviews. -/
def groupAd : ReviewGroup := ⟨1, 0, "ad", none, some ⟨739299, 0⟩, 3⟩

/-- A group of topic `"bash"` due 2025-02-17 with 3 reviews. -/
def groupBash : ReviewGroup := ⟨2, 0, "bash", none, some ⟨739299, 0⟩, 3⟩

/-- A group of topic `"curl"` due 2025-02-17 with 2 reviews. -/
def groupCurl : ReviewGroup := ⟨3, 0, "curl", none, some ⟨739299, 0⟩, 2⟩

/-- A knowledge side with no topics at all (reconciliation is a no-op). -/
def scenarioEnv : LearningEnv := ⟨[], fun _ => 0⟩

/-- A review store holding the three scenario groups. -/
def scenarioStore : ReviewStore := ⟨[groupAd, groupBash, groupCurl], 4⟩

/-! ### Claim theorems -/

/-- Claim C1, counterexample. —  The dedup of
`__purge_headings_from_a_same_record` does not test against the
immediately preceding *surviving* entry, and its drop test looks for
the current id in the predecessor's `alternative_headings_id`, not the
other way around.  Concretely: (i) in `[rhmA, rhmB, rhmC]`,
`rhmB.alternative_headings_id` contains `rhmA`'s id and `rhmC` is
unrelated to both, yet nothing is dropped (the claim predicts
`[rhmA, rhmC]`); (ii) in `[rhmX, rhmY, rhmZ]` (symmetric sibling data:
X∼Y and Y∼Z) the code drops `rhmZ` because its id appears in the
*original* predecessor `rhmY`'s sibling list even though `rhmY` itself
was dropped, whereas the claim's surviving-predecessor rule keeps it. -/
theorem purge_dedup_counterexample :
    purge_headings_from_a_same_record [rhmA, rhmB, rhmC] = [rhmA, rhmB, rhmC] ∧
    purge_headings_from_a_same_record [rhmX, rhmY, rhmZ] = [rhmX] ∧
    purgeBySurvivingPredecessor [rhmX, rhmY, rhmZ] = [rhmX, rhmZ] :=
  ⟨rfl, rfl, rfl⟩

/-- Claim C1, amended. —  In the ranked-list dedup, an entry at position
`i > 0` is dropped exactly when its heading id appears in the
`alternative_headings_id` of the entry at position `i - 1` of the
*original* ranked list (whether or not that predecessor survived); so
for `[A, B, C]` with `B`'s id listed by `A` and `C`'s id not listed by
`B`, the result is `[A, C]`, and with `B`'s id not listed by `A` and
`C`'s id not listed by `B` (even if `C` is a sibling of `A`), the
result is `[A, B, C]` — the non-adjacent sibling is not removed. -/
theorem purge_dedup_adjacent_only (A B C : RecordHeadingMatch) :
    (B.record_heading.id ∈ A.record_heading.alternative_headings_id →
      C.record_heading.id ∉ B.record_heading.alternative_headings_id →
      purge_headings_from_a_same_record [A, B, C] = [A, C]) ∧
    (B.record_heading.id ∉ A.record_heading.alternative_headings_id →
      C.record_heading.id ∉ B.record_heading.alternative_headings_id →
      purge_headings_from_a_same_record [A, B, C] = [A, B, C]) := by
  constructor <;> intro h1 h2 <;>
    simp [purge_headings_from_a_same_record, List.enum_cons, List.enumFrom,
      List.filterMap_cons, h1, h2]

/-- Witness for `purge_dedup_adjacent_only` at `[rhmP, rhmQ, rhmR]`:
`rhmQ`'s id 2 is listed by `rhmP` and `rhmR`'s id 3 is not listed by
`rhmQ`, so the adjacent sibling is dropped. -/
theorem purge_dedup_adjacent_only_witness :
    purge_headings_from_a_same_record [rhmP, rhmQ, rhmR] = [rhmP, rhmR] :=
  (purge_dedup_adjacent_only rhmP rhmQ rhmR).1 (by decide) (by decide)

/-- Claim C9. —  If the selected topics (detected plus the sentinel) yield
an empty heading pool, `ask` returns `((), "")` immediately and the
result does not depend on the scorer at all. -/
theorem ask_empty_pool_spec (kb : KnowledgeStore) (scorer scorer' : Scorer)
    (q : String) (h : askPool kb q = []) :
    ask kb scorer q = some ([], "") ∧
    ask kb scorer q = ask kb scorer' q := by
  constructor <;> simp [ask, h]

/-- Witness for `ask_empty_pool_spec`: a store with no headings. -/
theorem ask_empty_pool_spec_witness :
    ask emptyKB nilScorer "q" = some ([], "") ∧
    ask emptyKB nilScorer "q" = ask emptyKB topScorer "q" :=
  ask_empty_pool_spec emptyKB nilScorer topScorer "q" rfl

/-- Claim C10. —  With a non-empty heading pool, `ask` unconditionally
indexes `top_n_similar_ranking[0]`; if the scorer returns an empty
ranking the call dies with an uncaught `IndexError` (modelled as
`none`). -/
theorem ask_empty_ranking_crashes (kb : KnowledgeStore) (scorer : Scorer)
    (q : String) (hpool : askPool kb q ≠ [])
    (hrank : askRanking kb scorer q = []) :
    ask kb scorer q = none := by
  simp only [ask, hrank, hpool, List.isEmpty_eq_true, if_false, lookupMatches,
    List.getElem?_nil]

/-- Witness for `ask_empty_ranking_crashes`: one pooled heading, a
scorer that returns no pairs. -/
theorem ask_empty_ranking_crashes_witness :
    ask witnessKB nilScorer "q" = none :=
  ask_empty_ranking_crashes witnessKB nilScorer "q" (by decide) rfl

/-- Inversion of a successful interval-progression step: the stepped
group had `reviews_count ≤ 3`, the count went up by exactly one,
`last_review_date` became the current timestamp, and the new
`next_review_date` is `None` exactly for the `3 → 4` transition and
otherwise `now + k` days for some `k ≥ 1`. -/
theorem update_step_updated_inv (now : DateTime) (g g' : ReviewGroup)
    (h : update_review_group_dates_and_count now g = .updated g') :
    g.reviews_count ≤ 3 ∧
    g'.reviews_count = g.reviews_count + 1 ∧
    g'.last_review_date = some now ∧
    ((g.reviews_count = 3 ∧ g'.next_review_date = none) ∨
      (g.reviews_count < 3 ∧
        ∃ k, 1 ≤ k ∧ g'.next_review_date = some (now.addDays k))) := by
  unfold update_review_group_dates_and_count at h
  rcases hn : g.next_review_date with _ | d <;> rw [hn] at h <;> dsimp only at h <;>
    split_ifs at h <;> cases h <;>
    (refine ⟨by omega, by simp, by simp, ?_⟩
     first
       | exact Or.inl ⟨by omega, rfl⟩
       | exact Or.inr ⟨by omega, 1, by omega, rfl⟩
       | exact Or.inr ⟨by omega, 5, by omega, rfl⟩
       | exact Or.inr ⟨by omega, 23, by omega, rfl⟩)

/-- Claim C3. —  The interval-progression step is the 4-stage ladder:
`reviews_count = 0` advances unconditionally to `today + 1`;
counts 1, 2, 3 advance to `today + 5`, `today + 23` and `None`
respectively only when the stored `next_review_date` is already due,
each time incrementing the count by exactly one and stamping
`last_review_date`; a non-due date changes nothing; count 4 is
terminal; and a second traversal with the same `now` right after a
successful transition is always a no-op. -/
theorem interval_ladder_spec (g : ReviewGroup) (now : DateTime) :
    (g.reviews_count = 0 →
      update_review_group_dates_and_count now g =
        .updated { g with
          last_review_date := some now
          next_review_date := some (now.addDays 1)
          reviews_count := g.reviews_count + 1 }) ∧
    (∀ d, g.next_review_date = some d → d.date ≤ now.date →
      (g.reviews_count = 1 →
        update_review_group_dates_and_count now g =
          .updated { g with
            last_review_date := some now
            next_review_date := some (now.addDays 5)
            reviews_count := g.reviews_count + 1 }) ∧
      (g.reviews_count = 2 →
        update_review_group_dates_and_count now g =
          .updated { g with
            last_review_date := some now
            next_review_date := some (now.addDays 23)
            reviews_count := g.reviews_count + 1 }) ∧
      (g.reviews_count = 3 →
        update_review_group_dates_and_count now g =
          .updated { g with
            last_review_date := some now
            next_review_date := none
            reviews_count := g.reviews_count + 1 })) ∧
    (∀ d, g.next_review_date = some d → ¬ d.date ≤ now.date →
      g.reviews_count ≠ 0 →
      update_review_group_dates_and_count now g = .noChange) ∧
    (g.reviews_count = 4 →
      update_review_group_dates_and_count now g = .noChange) ∧
    (∀ g', update_review_group_dates_and_count now g = .updated g' →
      update_review_group_dates_and_count now g' = .noChange) := by
  refine ⟨fun h0 => by simp [update_review_group_dates_and_count, h0],
    fun d hd hdue => ⟨fun h1 => ?_, fun h2 => ?_, fun h3 => ?_⟩,
    fun d hd hdue hne => ?_, fun h4 => ?_, fun g' hup => ?_⟩
  · simp [update_review_group_dates_and_count, h1, hd, hdue]
  · simp [update_review_group_dates_and_count, h2, hd, hdue]
  · simp [update_review_group_dates_and_count, h3, hd, hdue]
  · rcases hc : g.reviews_count with _ | _ | _ | _ | c
    · exact absurd hc hne
    · simp [update_review_group_dates_and_count, hc, hd, hdue]
    · simp [update_review_group_dates_and_count, hc, hd, hdue]
    · simp [update_review_group_dates_and_count, hc, hd, hdue]
    · simp [update_review_group_dates_and_count, hc]
  · simp [update_review_group_dates_and_count, h4]
  · obtain ⟨hle, hcnt, -, hdisj⟩ := update_step_updated_inv now g g' hup
    rcases hdisj with ⟨h3, hnone⟩ | ⟨hlt, k, hk, hsome⟩
    · have hc4 : g'.reviews_count = 4 := by omega
      simp [update_review_group_dates_and_count, hc4]
    · have hgate : ¬ (now.addDays k).date ≤ now.date := by
        simp only [DateTime.addDays, DateTime.date]
        omega
      have hc : g'.reviews_count = 1 ∨ g'.reviews_count = 2 ∨
          g'.reviews_count = 3 := by omega
      rcases hc with hc | hc | hc <;>
        simp [update_review_group_dates_and_count, hc, hsome, hgate]

/-- Witness for `interval_ladder_spec`: a fresh group advances to
`{count 1, next = day 101}` on day 100, and stepping the advanced group
again the same day is a no-op. -/
theorem interval_ladder_spec_witness :
    update_review_group_dates_and_count ⟨100, 0⟩ ⟨1, 0, "t", none, none, 0⟩ =
      .updated ⟨1, 0, "t", some ⟨100, 0⟩, some ⟨101, 0⟩, 1⟩ ∧
    update_review_group_dates_and_count ⟨100, 0⟩
      ⟨1, 0, "t", some ⟨100, 0⟩, some ⟨101, 0⟩, 1⟩ = .noChange := by
  have h := interval_ladder_spec ⟨1, 0, "t", none, none, 0⟩ ⟨100, 0⟩
  have h1 := h.1 rfl
  exact ⟨h1, h.2.2.2.2 _ h1⟩

/-- Claim C8. —  Review groups created by reconciliation and evolved only
through the interval-progression step satisfy the invariant:
`reviews_count` stays in `[0, 4]` and moves only by increments of
exactly one, and `next_review_date` is `None` exactly when the count
is 0 or 4. -/
theorem review_group_invariant_spec :
    (∀ st topic count,
      ∀ g ∈ (update_review_groups_for_topic st topic count).groups.drop
          st.groups.length,
        ReachableReviewGroup g) ∧
    (∀ g, ReachableReviewGroup g →
      g.reviews_count ≤ 4 ∧
      (g.next_review_date = none ↔
        (g.reviews_count = 0 ∨ g.reviews_count = 4))) ∧
    (∀ now g g',
      update_review_group_dates_and_count now g = .updated g' →
      g'.reviews_count = g.reviews_count + 1) := by
  refine ⟨fun st topic count g hg => ?_, fun g h => ?_,
    fun now g g' hup => (update_step_updated_inv now g g' hup).2.1⟩
  · unfold update_review_groups_for_topic at hg
    by_cases hlt : get_number_of_review_groups_for_topic st topic <
        (count + MAX_RECORDS_PER_REVIEW_GROUP - 1) / MAX_RECORDS_PER_REVIEW_GROUP
    · simp only [hlt, if_pos, List.drop_left, List.mem_map, List.mem_range] at hg
      obtain ⟨j, -, rfl⟩ := hg
      exact ReachableReviewGroup.created _ _ _
    · simp only [hlt, if_neg, not_false_iff, List.drop_length] at hg
      cases hg
  · induction h with
    | created id idx topic => simp
    | step g g' now hr hup ih =>
      obtain ⟨hle, hcnt, -, hdisj⟩ := update_step_updated_inv now g g' hup
      refine ⟨by omega, ?_⟩
      rcases hdisj with ⟨h3, hnone⟩ | ⟨hlt, k, hk, hsome⟩
      · simp [hnone]; omega
      · simp [hsome]; omega

/-- Witness for `review_group_invariant_spec`: the invariant holds for
a freshly created group, and the `0 → 1` step increments the count by
exactly one. -/
theorem review_group_invariant_spec_witness :
    ((⟨1, 0, "t", none, none, 0⟩ : ReviewGroup).reviews_count ≤ 4 ∧
      ((⟨1, 0, "t", none, none, 0⟩ : ReviewGroup).next_review_date = none ↔
        ((⟨1, 0, "t", none, none, 0⟩ : ReviewGroup).reviews_count = 0 ∨
          (⟨1, 0, "t", none, none, 0⟩ : ReviewGroup).reviews_count = 4))) ∧
    (⟨1, 0, "t", some ⟨100, 0⟩, some ⟨101, 0⟩, 1⟩ : ReviewGroup).reviews_count =
      (⟨1, 0, "t", none, none, 0⟩ : ReviewGroup).reviews_count + 1 :=
  ⟨review_group_invariant_spec.2.1 _ (ReachableReviewGroup.created 1 0 "t"),
   review_group_invariant_spec.2.2 ⟨100, 0⟩ _ _ (by decide)⟩

/-- Claim C7. —  `get_number_of_records_in_review_group` errors (`none`)
when the topic has zero groups, answers the full capacity for every
non-last group, and the remainder
`total - (groups - 1) * MAX_RECORDS_PER_REVIEW_GROUP` for the last
group; in particular for a topic with `MAX * k + r` records
(`0 < r < MAX`) reconciliation from scratch makes `k + 1` groups, the
last answering `r` and every other answering `MAX`. -/
theorem records_in_group_spec :
    (∀ totalRecords groupIndex,
      get_number_of_records_in_review_group 0 totalRecords groupIndex = none) ∧
    (∀ numGroups totalRecords groupIndex, numGroups ≠ 0 →
      numGroups - 1 ≠ groupIndex →
      get_number_of_records_in_review_group numGroups totalRecords groupIndex =
        some (MAX_RECORDS_PER_REVIEW_GROUP : ℤ)) ∧
    (∀ numGroups totalRecords, numGroups ≠ 0 →
      get_number_of_records_in_review_group numGroups totalRecords (numGroups - 1) =
        some ((totalRecords : ℤ) -
          ((numGroups : ℤ) - 1) * (MAX_RECORDS_PER_REVIEW_GROUP : ℤ))) ∧
    (∀ topic k r, 0 < r → r < MAX_RECORDS_PER_REVIEW_GROUP →
      get_number_of_review_groups_for_topic
        (update_review_groups_for_topic ⟨[], 0⟩ topic
          (MAX_RECORDS_PER_REVIEW_GROUP * k + r)) topic = k + 1 ∧
      (∀ groupIndex, groupIndex ≠ k →
        get_number_of_records_in_review_group (k + 1)
          (MAX_RECORDS_PER_REVIEW_GROUP * k + r) groupIndex =
          some (MAX_RECORDS_PER_REVIEW_GROUP : ℤ)) ∧
      get_number_of_records_in_review_group (k + 1)
        (MAX_RECORDS_PER_REVIEW_GROUP * k + r) k = some (r : ℤ)) := by
  refine ⟨fun total gi => by simp [get_number_of_records_in_review_group],
    fun n total gi hn hgi => by
      simp [get_number_of_records_in_review_group, hn, hgi],
    fun n total hn => by simp [get_number_of_records_in_review_group, hn],
    fun topic k r hr hr7 => ⟨?_, fun gi hgi => ?_, ?_⟩⟩
  · have hreq : (MAX_RECORDS_PER_REVIEW_GROUP * k + r +
        MAX_RECORDS_PER_REVIEW_GROUP - 1) / MAX_RECORDS_PER_REVIEW_GROUP = k + 1 := by
      simp only [MAX_RECORDS_PER_REVIEW_GROUP] at *
      omega
    simp [update_review_groups_for_topic, get_number_of_review_groups_for_topic,
      hreq, List.filter_map, Function.comp_def]
  · have h1 : ¬ (k = gi) := fun h => hgi h.symm
    simp [get_number_of_records_in_review_group, h1]
  · have hlast : k + 1 - 1 = k := by omega
    simp only [get_number_of_records_in_review_group, Nat.succ_ne_zero, if_false,
      hlast, if_pos rfl, MAX_RECORDS_PER_REVIEW_GROUP, reduceIte]
    congr 1
    push_cast
    ring

/-- Witness for `records_in_group_spec`: a topic with 10 = 7·1 + 3
records gets 2 groups; group 0 holds 7 records, group 1 holds 3;
zero groups is an error. -/
theorem records_in_group_spec_witness :
    get_number_of_records_in_review_group 0 10 0 = none ∧
    get_number_of_records_in_review_group 2 10 0 =
      some (MAX_RECORDS_PER_REVIEW_GROUP : ℤ) ∧
    get_number_of_review_groups_for_topic
      (update_review_groups_for_topic ⟨[], 0⟩ "bash"
        (MAX_RECORDS_PER_REVIEW_GROUP * 1 + 3)) "bash" = 1 + 1 ∧
    get_number_of_records_in_review_group (1 + 1)
      (MAX_RECORDS_PER_REVIEW_GROUP * 1 + 3) 1 = some ((3 : ℕ) : ℤ) :=
  ⟨records_in_group_spec.1 10 0,
   records_in_group_spec.2.1 2 10 0 (by decide) (by decide),
   (records_in_group_spec.2.2.2 "bash" 1 3 (by decide) (by decide)).1,
   (records_in_group_spec.2.2.2 "bash" 1 3 (by decide) (by decide)).2.2⟩

/-- Claim C6. —  Reconciliation appends exactly
`max 0 (ceil(count / MAX) - existing)` new groups (the truncated `ℕ`
subtraction below *is* that `max`), with `group_index` running on from
the existing count, each initialized with `None` dates and a zero
count; the pre-existing rows are preserved unchanged as a prefix (so
nothing is removed or mutated), and a second call with the same count
is the identity. -/
theorem reconcile_groups_spec (st : ReviewStore) (topic : String) (count : ℕ) :
    ∃ created : List ReviewGroup,
      (update_review_groups_for_topic st topic count).groups =
        st.groups ++ created ∧
      created.length =
        (count + MAX_RECORDS_PER_REVIEW_GROUP - 1) / MAX_RECORDS_PER_REVIEW_GROUP -
          get_number_of_review_groups_for_topic st topic ∧
      created.map ReviewGroup.group_index =
        List.range' (get_number_of_review_groups_for_topic st topic)
          created.length ∧
      (∀ g ∈ created, g.topic = topic ∧ g.last_review_date = none ∧
        g.next_review_date = none ∧ g.reviews_count = 0) ∧
      update_review_groups_for_topic
          (update_review_groups_for_topic st topic count) topic count =
        update_review_groups_for_topic st topic count := by
  set existing := get_number_of_review_groups_for_topic st topic with hex
  set required :=
    (count + MAX_RECORDS_PER_REVIEW_GROUP - 1) / MAX_RECORDS_PER_REVIEW_GROUP
    with hreq
  by_cases hlt : existing < required
  · set created := (List.range (required - existing)).map (fun j =>
      ({ id := st.nextId + j
         group_index := existing + j
         topic := topic
         last_review_date := none
         next_review_date := none
         reviews_count := 0 } : ReviewGroup)) with hcr
    have hgroups : (update_review_groups_for_topic st topic count).groups =
        st.groups ++ created := by
      simp [update_review_groups_for_topic, ← hex, ← hreq, hlt, hcr]
    have hcount : get_number_of_review_groups_for_topic
        (update_review_groups_for_topic st topic count) topic = required := by
      rw [get_number_of_review_groups_for_topic, hgroups, List.filter_append,
        List.length_append, hcr, List.filter_map]
      have hfl : ((List.range (required - existing)).filter
          ((fun g : ReviewGroup => decide (g.topic = topic)) ∘ (fun j =>
            ({ id := st.nextId + j
               group_index := existing + j
               topic := topic
               last_review_date := none
               next_review_date := none
               reviews_count := 0 } : ReviewGroup)))) =
          List.range (required - existing) := by
        apply List.filter_eq_self.mpr
        intro a _
        simp
      rw [hfl, List.length_map, List.length_range,
        ← get_number_of_review_groups_for_topic, ← hex]
      omega
    refine ⟨created, hgroups, by simp [hcr], ?_, ?_, ?_⟩
    · simp only [hcr, List.map_map, List.length_map, List.length_range,
        Function.comp_def]
      rw [List.range'_eq_map_range]
    · intro g hg
      simp only [hcr, List.mem_map, List.mem_range] at hg
      obtain ⟨j, -, rfl⟩ := hg
      exact ⟨rfl, rfl, rfl, rfl⟩
    · generalize hst' : update_review_groups_for_topic st topic count = st' at hcount ⊢
      unfold update_review_groups_for_topic
      simp only [hcount, ← hreq, lt_self_iff_false, if_false, reduceIte]
  · refine ⟨[], ?_, ?_, ?_, by simp, ?_⟩
    · have hupd : update_review_groups_for_topic st topic count = st := by
        unfold update_review_groups_for_topic
        simp only [← hex, ← hreq, hlt, if_false, reduceIte]
      simp [hupd]
    · simp only [List.length_nil]
      omega
    · simp
    · have hupd : update_review_groups_for_topic st topic count = st := by
        unfold update_review_groups_for_topic
        simp only [← hex, ← hreq, hlt, if_false, reduceIte]
      rw [hupd, hupd]

/-- Inversion of a crashing interval-progression step: the
`AttributeError` happens only when `next_review_date` is `None` while
`reviews_count` is 1, 2 or 3. -/
theorem update_step_crash_inv (now : DateTime) (g : ReviewGroup)
    (h : update_review_group_dates_and_count now g = .crash) :
    g.next_review_date = none ∧
    (g.reviews_count = 1 ∨ g.reviews_count = 2 ∨ g.reviews_count = 3) := by
  unfold update_review_group_dates_and_count at h
  rcases hn : g.next_review_date with _ | d <;> rw [hn] at h <;> dsimp only at h <;>
    split_ifs at h <;> (cases h; exact ⟨rfl, by omega⟩)

/-- Claim C4. —  `fetch_groups_to_review` reconciles the groups of every
known topic first, then returns a permutation of all stored groups that
is sorted by the total preorder `groupLE` (next review date ascending
with `None` mapped to `datetime.max`, then review count, then topic,
then the `None` flag); on the three scenario groups the order is
`curl` (count 2) before `ad` before `bash` (topic tie-break). -/
theorem fetch_groups_ordering_spec :
    (∀ env st,
      (fetch_groups_to_review env st).1 =
        env.topics.foldl
          (fun s t => update_review_groups_for_topic s t (env.record_count t)) st ∧
      ((fetch_groups_to_review env st).2).Perm
        (fetch_groups_to_review env st).1.groups ∧
      List.Sorted groupLE (fetch_groups_to_review env st).2) ∧
    (fetch_groups_to_review scenarioEnv scenarioStore).2 =
      [groupCurl, groupAd, groupBash] := by
  refine ⟨fun env st => ⟨rfl, ?_, ?_⟩, ?_⟩
  · exact List.perm_insertionSort groupLE _
  · exact List.sorted_insertionSort groupLE _
  · decide

/-- Claim C5. —  `get_next_record_to_review` always returns the record at
absolute index `group_index * MAX_RECORDS_PER_REVIEW_GROUP + cursor`
(the cursor value *before* any state change); when the cursor has not
reached the group's last record (bounded by the group's record count
and by the capacity) it only increments the cursor, otherwise the same
call resets the cursor to 0 and applies the interval-progression step
to the active group. -/
theorem get_next_record_spec (numGroups totalRecords : ℕ) (now : DateTime)
    (s : ReviewSession) (hg : numGroups ≠ 0)
    (hwf : s.group.next_review_date = none →
      s.group.reviews_count = 0 ∨ 4 ≤ s.group.reviews_count) :
    ∃ n, get_number_of_records_in_review_group numGroups totalRecords
        s.group.group_index = some n ∧
      (((s.pos : ℤ) < n - 1 ∧
          (s.pos : ℤ) < (MAX_RECORDS_PER_REVIEW_GROUP : ℤ) - 1) →
        get_next_record_to_review numGroups totalRecords now s =
          some (s.group.group_index * MAX_RECORDS_PER_REVIEW_GROUP + s.pos,
            ⟨s.group, s.pos + 1⟩)) ∧
      (¬ ((s.pos : ℤ) < n - 1 ∧
          (s.pos : ℤ) < (MAX_RECORDS_PER_REVIEW_GROUP : ℤ) - 1) →
        ∃ s', get_next_record_to_review numGroups totalRecords now s =
            some (s.group.group_index * MAX_RECORDS_PER_REVIEW_GROUP + s.pos, s') ∧
          s'.pos = 0 ∧
          (update_review_group_dates_and_count now s.group = .noChange →
            s'.group = s.group) ∧
          (∀ g', update_review_group_dates_and_count now s.group = .updated g' →
            s'.group = g')) := by
  obtain ⟨n, hn⟩ : ∃ n, get_number_of_records_in_review_group numGroups
      totalRecords s.group.group_index = some n := by
    unfold get_number_of_records_in_review_group
    rw [if_neg hg]
    split_ifs <;> exact ⟨_, rfl⟩
  refine ⟨n, hn, fun hcond => ?_, fun hcond => ?_⟩
  · simp only [get_next_record_to_review, hn]
    rw [if_pos hcond]
  · simp only [get_next_record_to_review, hn]
    rw [if_neg hcond]
    rcases hu : update_review_group_dates_and_count now s.group with _ | _ | g'
    · obtain ⟨hnone, hcnt⟩ := update_step_crash_inv now s.group hu
      rcases hwf hnone with h0 | h4 <;> rcases hcnt with h | h | h <;> omega
    · exact ⟨⟨s.group, 0⟩, rfl, rfl, fun _ => rfl, fun g' hg' => nomatch hg'⟩
    · refine ⟨⟨g', 0⟩, rfl, rfl, fun hnc => ?_,
        fun g'' hg'' => ReviewStepResult.updated.inj hg''⟩
      exact nomatch hnc

/-- Witness for `get_next_record_spec`: a fresh session on a 3-record
single group returns record 0 and advances the cursor to 1. -/
theorem get_next_record_spec_witness :
    get_next_record_to_review 1 3 ⟨100, 0⟩ ⟨⟨1, 0, "t", none, none, 0⟩, 0⟩ =
      some (0, ⟨⟨1, 0, "t", none, none, 0⟩, 1⟩) := by
  obtain ⟨n, hn, hthen, -⟩ :=
    get_next_record_spec 1 3 ⟨100, 0⟩ ⟨⟨1, 0, "t", none, none, 0⟩, 0⟩
      (by decide) (fun _ => Or.inl rfl)
  have hn' : get_number_of_records_in_review_group 1 3 0 = some 3 := by decide
  injection (hn'.symm.trans hn) with h3
  subst h3
  exact hthen ⟨by decide, by decide⟩

/-- Building `top_n_similar_headings` succeeds whenever every ranking
index is a valid pool index, the result is empty only for an empty
ranking, and its head pairs the pool entry at the top ranking index
with the top score. -/
theorem lookupMatches_spec (headings : List RecordHeading) :
    ∀ ranking : List (ℕ × ℚ), (∀ p ∈ ranking, p.1 < headings.length) →
      ∃ ms, lookupMatches headings ranking = some ms ∧
        (ranking = [] → ms = []) ∧
        (∀ r0, ranking[0]? = some r0 →
          ∃ h0, headings[r0.1]? = some h0 ∧
            ms[0]? = some (RecordHeadingMatch.mk h0 r0.2)) := by
  intro ranking hvalid
  induction ranking with
  | nil => exact ⟨[], rfl, fun _ => rfl, by simp⟩
  | cons p t ih =>
    have hp : p.1 < headings.length := hvalid p (by simp)
    have hh : headings[p.1]? = some headings[p.1] := List.getElem?_eq_getElem hp
    obtain ⟨ms, hms, -, -⟩ := ih (fun q hq => hvalid q (List.mem_cons_of_mem _ hq))
    refine ⟨RecordHeadingMatch.mk headings[p.1] p.2 :: ms, ?_, by simp, ?_⟩
    · simp [lookupMatches, hms, hh]
    · intro r0 hr0
      rw [List.getElem?_cons_zero] at hr0
      injection hr0 with hr0
      subst hr0
      exact ⟨headings[p.1], hh, by simp⟩

/-- The dedup always keeps the head of the ranked list. -/
theorem purge_cons (m : RecordHeadingMatch) (t : List RecordHeadingMatch) :
    ∃ rest, purge_headings_from_a_same_record (m :: t) = m :: rest :=
  ⟨_, rfl⟩

/-- Claim C2. —  With a non-empty pool and a non-empty ranking of valid
pool indices, `ask` returns the deduplicated match list and: a body of
exactly `""` when the pre-dedup top-1 score is below the MEDIUM lower
bound 0.6, and the Record Store's body for the post-dedup top-1 match's
(topic, id) when that score reaches the bound. -/
theorem ask_relevance_gate_spec (kb : KnowledgeStore) (scorer : Scorer)
    (q : String) (r0 : ℕ × ℚ)
    (hpool : askPool kb q ≠ [])
    (hr0 : (askRanking kb scorer q)[0]? = some r0)
    (hvalid : ∀ p ∈ askRanking kb scorer q, p.1 < (askPool kb q).length) :
    ∃ ms m b, ask kb scorer q = some (ms, b) ∧ ms[0]? = some m ∧
      (r0.2 < SimilarityScore.MEDIUM.lower_bound → b = "") ∧
      (SimilarityScore.MEDIUM.lower_bound ≤ r0.2 →
        b = kb.body m.record_heading.topic m.record_heading.id) := by
  obtain ⟨ms0, hms0, -, hhead⟩ :=
    lookupMatches_spec (askPool kb q) (askRanking kb scorer q) hvalid
  obtain ⟨h0, -, hms0head⟩ := hhead r0 hr0
  obtain ⟨tail, rfl⟩ : ∃ tail, ms0 = RecordHeadingMatch.mk h0 r0.2 :: tail := by
    cases ms0 with
    | nil => simp at hms0head
    | cons a t =>
      rw [List.getElem?_cons_zero] at hms0head
      injection hms0head with hms0head
      exact ⟨t, by rw [hms0head]⟩
  obtain ⟨rest, hrest⟩ := purge_cons (RecordHeadingMatch.mk h0 r0.2) tail
  have hempty : (askPool kb q).isEmpty = false := by
    simp [List.isEmpty_eq_false, hpool]
  by_cases hgate : SimilarityScore.MEDIUM.lower_bound ≤ r0.2
  · refine ⟨RecordHeadingMatch.mk h0 r0.2 :: rest, RecordHeadingMatch.mk h0 r0.2,
      kb.body h0.topic h0.id, ?_, List.getElem?_cons_zero,
      fun hlt => absurd hgate (not_le.mpr hlt), fun _ => rfl⟩
    simp only [ask, hempty, Bool.false_eq_true, if_false, hms0, hrest, hr0,
      if_pos hgate, List.getElem?_cons_zero]
  · refine ⟨RecordHeadingMatch.mk h0 r0.2 :: rest, RecordHeadingMatch.mk h0 r0.2,
      "", ?_, List.getElem?_cons_zero, fun _ => rfl,
      fun hge => absurd hge hgate⟩
    simp only [ask, hempty, Bool.false_eq_true, if_false, hms0, hrest, hr0,
      if_neg hgate]

/-- Witness for `ask_relevance_gate_spec`: a single pooled heading;
with score 1 the body is resolved, as the theorem's high branch says. -/
theorem ask_relevance_gate_spec_witness :
    ∃ ms m b, ask witnessKB topScorer "q" = some (ms, b) ∧ ms[0]? = some m ∧
      (((0, (1 : ℚ)) : ℕ × ℚ).2 < SimilarityScore.MEDIUM.lower_bound → b = "") ∧
      (SimilarityScore.MEDIUM.lower_bound ≤ ((0, (1 : ℚ)) : ℕ × ℚ).2 →
        b = witnessKB.body m.record_heading.topic m.record_heading.id) :=
  ask_relevance_gate_spec witnessKB topScorer "q" (0, 1) (by decide) rfl
    (by
      intro p hp
      have he : askRanking witnessKB topScorer "q" = [(0, 1)] := rfl
      rw [he, List.mem_singleton] at hp
      subst hp
      decide)

/-- Witness for `reconcile_groups_spec`: reconciling an empty store for
a topic with 10 records. -/
theorem reconcile_groups_spec_witness :
    ∃ created : List ReviewGroup,
      (update_review_groups_for_topic ⟨[], 0⟩ "bash" 10).groups =
        (⟨[], 0⟩ : ReviewStore).groups ++ created ∧
      created.length =
        (10 + MAX_RECORDS_PER_REVIEW_GROUP - 1) / MAX_RECORDS_PER_REVIEW_GROUP -
          get_number_of_review_groups_for_topic ⟨[], 0⟩ "bash" ∧
      created.map ReviewGroup.group_index =
        List.range' (get_number_of_review_groups_for_topic ⟨[], 0⟩ "bash")
          created.length ∧
      (∀ g ∈ created, g.topic = "bash" ∧ g.last_review_date = none ∧
        g.next_review_date = none ∧ g.reviews_count = 0) ∧
      update_review_groups_for_topic
          (update_review_groups_for_topic ⟨[], 0⟩ "bash" 10) "bash" 10 =
        update_review_groups_for_topic ⟨[], 0⟩ "bash" 10 :=
  reconcile_groups_spec ⟨[], 0⟩ "bash" 10
